import Mathlib

/-!
Verification of the Grid Clash authoritative UDP synchronization protocol
(`server_final.py` and `client_final.py`), via a shallow embedding of both
endpoints' state and message handling in Lean.

Modelling conventions:
* Python `int` grid cells become `Int`; indices are `Nat` after bounds checks.
* The 24-byte wire header is embedded as a structure (`Datagram`); header
  timestamps are wall-clock values passed in as explicit `now` parameters
  where the code reads `time.time()`.
* Python `dict` / `set` become association lists / duplicate-free lists;
  only the operations the code performs (lookup, overwrite, min, membership,
  discard) are used.
* Fallible Python operations (`int(...)`, string subscripts on tuples) become
  `Option` / `Except`, mirroring the enclosing `try/except` blocks.
-/

/-- Grid of cell owners, `0` = empty, positive = player id (Python list of lists). -/
abbrev Grid := List (List Int)

/-- `grid[r][c]` with Python-style read; out-of-range reads default to `0`
(all modelled reads are guarded in-bounds by the code). -/
def gridGet (g : Grid) (r c : Nat) : Int :=
  (g.getD r []).getD c 0

/-- `grid[r][c] = v` (row mutated in place; out-of-range writes are no-ops,
all modelled writes are guarded in-bounds by the code). -/
def gridSet (g : Grid) (r c : Nat) (v : Int) : Grid :=
  g.set r ((g.getD r []).set c v)

/-- `rows` from `server_final.py`. -/
def rows : Nat := 5
/-- `cols` from `server_final.py`. -/
def cols : Nat := 5

/-- The all-empty `rows × cols` grid (server start state). -/
def emptyGrid : Grid := List.replicate rows (List.replicate cols 0)

/-- Helper for `pySplit`: accumulate the current word (reversed) while
scanning characters. -/
def splitWsAux : List Char → List Char → List String
  | [], [] => []
  | [], acc => [String.mk acc.reverse]
  | ch :: rest, acc =>
    if ch.isWhitespace then
      match acc with
      | [] => splitWsAux rest []
      | _ => String.mk acc.reverse :: splitWsAux rest []
    else
      splitWsAux rest (ch :: acc)

/-- Python `str.split()` with no argument: split on whitespace runs,
discarding empty fields. -/
def pySplit (s : String) : List String :=
  splitWsAux s.data []

/-- Digit characters to a number; `none` on any non-digit or empty input. -/
def parseNatDigits : List Char → Option Nat
  | [] => none
  | l => go l 0
where
  go : List Char → Nat → Option Nat
    | [], acc => some acc
    | ch :: rest, acc =>
      if ch.isDigit then go rest (acc * 10 + (ch.toNat - '0'.toNat)) else none

/-- Python `int(s)` on the decimal strings this protocol produces
(optional leading minus); `none` models `ValueError`. -/
def pyToInt (s : String) : Option Int :=
  match s.data with
  | '-' :: rest => (parseNatDigits rest).map (fun n => -(n : Int))
  | l => (parseNatDigits l).map (fun n => (n : Int))

/-- Decimal rendering of a natural number (Python `str(n)` for `n ≥ 0`). -/
def natToStr (n : Nat) : String :=
  String.mk (go (n + 1) n)
where
  go : Nat → Nat → List Char
    | 0, _ => []
    | fuel + 1, n =>
      if n < 10 then [Char.ofNat ('0'.toNat + n)]
      else go fuel (n / 10) ++ [Char.ofNat ('0'.toNat + n % 10)]

/-- Decimal rendering of an integer (Python `str(i)`). -/
def intToStr : Int → String
  | Int.ofNat n => natToStr n
  | Int.negSucc n => "-" ++ natToStr (n + 1)

/-- Python `" ".join(l)`. -/
def joinSpace : List String → String
  | [] => ""
  | [s] => s
  | s :: rest => s ++ " " ++ joinSpace rest

/-- Python `min` over a nonempty collection of naturals (callers guard
nonemptiness; `0` on `[]` is unreachable). -/
def listMin : List Nat → Nat
  | [] => 0
  | x :: xs => xs.foldl min x

/-- Python `set.add`: membership-preserving insert. -/
def setAdd (l : List Nat) (x : Nat) : List Nat :=
  if x ∈ l then l else l ++ [x]

/-- Does the string contain a non-whitespace character?
(Python truthiness of `s.strip()`.) -/
def hasNonWs (s : String) : Bool :=
  s.data.any (fun ch => !ch.isWhitespace)

/-- One entry of a client's `snapshot_buffer`:
`(snapshot_id, seq_num, payload, header)` — the stored raw header bytes are
never read back by the code and are not modelled. -/
structure BufEntry where
  snapshotId : Nat
  seqNum : Nat
  payload : String
deriving DecidableEq, Repr

/-- Per-client record held by the authority (`clients[addr]` in
`server_final.py`). -/
structure ClientInfo where
  seq : Nat
  snapshotId : Nat
  clientNumber : Nat
  lastAck : Bool
  snapshotBuffer : List BufEntry
  lastAckedSnapshotId : Nat
  packetsAwaitingAck : List Nat
  consecutiveUnackedHeartbeats : Nat
  lastGridSent : Grid
deriving DecidableEq, Repr

/-- One leaderboard entry of the `GAME_OVER` JSON payload. -/
structure LBEntry where
  rank : Nat
  player : Int
  color : String
  score : Nat
deriving DecidableEq, Repr

/-- Datagrams as structured values (payloads of `FULL` and `GAME_OVER` are
carried JSON-decoded; `DELTA` keeps its textual payload since both endpoints
manipulate the string). -/
inductive Msg where
  | ack (snapshotId seqNum : Nat)
  | full (snapshotId seqNum : Nat) (grid : Grid)
  | delta (snapshotId seqNum : Nat) (payload : String)
  | heartbeat (snapshotId seqNum : Nat)
  | gameOver (seqNum : Nat) (leaderboard : List LBEntry)
deriving DecidableEq, Repr

/-- `calculate_delta_changes(old_grid, new_grid)`: cells whose value differs,
as `(new_value, row, col)` triples in row-major order. -/
def calculate_delta_changes (oldGrid newGrid : Grid) : List (Int × Nat × Nat) :=
  (List.range newGrid.length).flatMap (fun r =>
    (List.range ((newGrid.getD r []).length)).filterMap (fun c =>
      if gridGet oldGrid r c ≠ gridGet newGrid r c then
        some (gridGet newGrid r c, r, c)
      else none))

/-- `encode_delta_payload(changes)`: space-separated flattened triples. -/
def encode_delta_payload (changes : List (Int × Nat × Nat)) : String :=
  if changes = [] then ""
  else joinSpace (changes.flatMap (fun t => [intToStr t.1, natToStr t.2.1, natToStr t.2.2]))

/-- One client's slice of a broadcast tick (`broadcast_snapshots` loop body):
liveness gate, retransmit gate, then delta or heartbeat.  Returns `none` when
the client is evicted, and the list of datagrams sent to it this tick. -/
def clientTick (modifiedFlag : Bool) (grid : Grid) (info : ClientInfo) :
    Option ClientInfo × List Msg :=
  if info.consecutiveUnackedHeartbeats ≥ 10 then
    (none, [])
  else
    let retrans : Option BufEntry :=
      if info.packetsAwaitingAck ≠ [] ∧ info.snapshotBuffer ≠ [] then
        (info.snapshotBuffer.filter
          (fun pkt => pkt.snapshotId = listMin info.packetsAwaitingAck)).head?
      else none
    match retrans with
    | some pkt =>
      (some { info with seq := info.seq + 1 },
       [Msg.delta pkt.snapshotId (info.seq + 1) pkt.payload])
    | none =>
      if modifiedFlag then
        let sid := info.snapshotId + 1
        let sq := info.seq + 1
        let payload := encode_delta_payload (calculate_delta_changes info.lastGridSent grid)
        let buf := info.snapshotBuffer ++ [⟨sid, sq, payload⟩]
        let buf := if buf.length > 3 then buf.tail else buf
        (some { info with
                  snapshotId := sid, seq := sq,
                  lastGridSent := grid,
                  snapshotBuffer := buf,
                  packetsAwaitingAck := setAdd info.packetsAwaitingAck sid },
         [Msg.delta sid sq payload])
      else
        let sid := info.snapshotId + 1
        (some { info with
                  snapshotId := sid,
                  consecutiveUnackedHeartbeats := info.consecutiveUnackedHeartbeats + 1 },
         [Msg.heartbeat sid info.seq])

example : pySplit "ACQUIRE_CELL 0 3" = ["ACQUIRE_CELL", "0", "3"] := by decide
example : pyToInt "-12" = some (-12) := by decide
example : encode_delta_payload [(1, 0, 0), (2, 3, 4)] = "1 0 0 2 3 4" := by decide
example : calculate_delta_changes emptyGrid emptyGrid = [] := by decide

/-- Leaderboard scoring (`scores = defaultdict(int); scores[cell] += 1`):
bump the count of `q` in an insertion-ordered association list. -/
def bump (l : List (Int × Nat)) (q : Int) : List (Int × Nat) :=
  match l with
  | [] => [(q, 1)]
  | (p, s) :: rest => if p = q then (p, s + 1) :: rest else (p, s) :: bump rest q

/-- The `scores` dict of `calculate_leaderboard`, as `(player, count)` pairs
in first-appearance (insertion) order of a row-major grid scan. -/
def computeScores (g : Grid) : List (Int × Nat) :=
  g.foldl (fun acc row =>
    row.foldl (fun acc cell => if 0 < cell then bump acc cell else acc) acc) []

/-- Stable descending insertion (the unique behaviour of Python's stable
`sorted(..., key=score, reverse=True)`): insert before the first element
whose score is not larger. -/
def insertDesc (x : Int × Nat) : List (Int × Nat) → List (Int × Nat)
  | [] => [x]
  | y :: ys => if y.2 ≤ x.2 then x :: y :: ys else y :: insertDesc x ys

/-- Stable sort by descending score. -/
def sortDesc : List (Int × Nat) → List (Int × Nat)
  | [] => []
  | x :: xs => insertDesc x (sortDesc xs)

/-- `calculate_leaderboard()`: scores sorted by descending count,
ties kept in dict insertion order (Python's `sorted` is stable). -/
def calculate_leaderboard (g : Grid) : List (Int × Nat) :=
  sortDesc (computeScores g)

/-- `PLAYER_COLORS.get(player_id, "Player<id>")`. -/
def playerColor (p : Int) : String :=
  if p = 1 then "Blue" else if p = 2 then "Green"
  else if p = 3 then "Salmon" else if p = 4 then "Plum"
  else if p = 5 then "Purple" else if p = 6 then "Orange"
  else if p = 7 then "Pink" else if p = 8 then "Cyan"
  else "Player" ++ intToStr p

/-- The `leaderboard` array of the `GAME_OVER` payload
(`enumerate(leaderboard, 1)` assigns ranks 1, 2, 3, …). -/
def leaderboardData (g : Grid) : List LBEntry :=
  (calculate_leaderboard g).enum.map
    (fun pe => { rank := pe.1 + 1, player := pe.2.1, color := playerColor pe.2.1,
                 score := pe.2.2 })

/-- Authority global state (module-level variables of `server_final.py`).
`positionsLog` holds the `(timestamp_ms, grid copy)` tuples appended by
`log_authoritative_position`. -/
structure ServerState where
  grid : Grid
  numberOfClicks : Nat
  modifiedFlag : Bool
  gameOver : Bool
  clientNumber : Nat
  clients : List (Nat × ClientInfo)
  positionsLog : List (Nat × Grid)
deriving DecidableEq, Repr

/-- Authority start state. -/
def initialServerState : ServerState :=
  { grid := emptyGrid, numberOfClicks := 0, modifiedFlag := true,
    gameOver := false, clientNumber := 0, clients := [], positionsLog := [] }

/-- `clients[addr]` lookup. -/
def lookupClient (cs : List (Nat × ClientInfo)) (addr : Nat) : Option ClientInfo :=
  (cs.find? (fun p => p.1 = addr)).map (fun p => p.2)

/-- `clients[addr] = info`: Python dict assignment keeps the original
insertion position on overwrite. -/
def dictSet (cs : List (Nat × ClientInfo)) (addr : Nat) (info : ClientInfo) :
    List (Nat × ClientInfo) :=
  if cs.any (fun p => p.1 = addr) then
    cs.map (fun p => if p.1 = addr then (addr, info) else p)
  else cs ++ [(addr, info)]

/-- `log_authoritative_position(timestamp_ms, grid_state)`: append a
`(timestamp, copy)` tuple, keeping only the last 1000 entries. -/
def log_authoritative_position (ts : Nat) (g : Grid) (log : List (Nat × Grid)) :
    List (Nat × Grid) :=
  let log := log ++ [(ts, g)]
  if log.length > 1000 then log.tail else log

/-- `broadcast_game_over()`: set the flag and send every client a
`GAME_OVER` datagram with a freshly incremented `seq`. -/
def broadcast_game_over (st : ServerState) : ServerState × List (Nat × Msg) :=
  let lb := leaderboardData st.grid
  let cs := st.clients.map (fun p => (p.1, { p.2 with seq := p.2.seq + 1 }))
  ({ st with gameOver := true, clients := cs },
   cs.map (fun p => (p.1, Msg.gameOver p.2.seq lb)))

/-- ACK-handler update of one client record (`msg_type == 1` branch):
reset the heartbeat counter, record the ACKed snapshot, discard it from
`packets_awaiting_ack`, and purge the buffer of entries not newer than it. -/
def ackUpdate (info : ClientInfo) (snapId : Nat) : ClientInfo :=
  { info with
      lastAck := true,
      consecutiveUnackedHeartbeats := 0,
      lastAckedSnapshotId := snapId,
      packetsAwaitingAck := info.packetsAwaitingAck.filter (fun s => s ≠ snapId),
      snapshotBuffer := info.snapshotBuffer.filter (fun pkt => snapId < pkt.snapshotId) }

/-- The client record as the INIT handler leaves it after sending the `FULL`
reply: counters at 1, empty reliability state, `last_grid_sent` = the grid. -/
def initClientRecord (playerNumber : Nat) (g : Grid) : ClientInfo :=
  { seq := 1, snapshotId := 1, clientNumber := playerNumber, lastAck := false,
    snapshotBuffer := [], lastAckedSnapshotId := 0, packetsAwaitingAck := [],
    consecutiveUnackedHeartbeats := 0, lastGridSent := g }

/-- An inbound datagram as the receive loop unpacks it (header fields plus
payload bytes; `struct.unpack` itself cannot fail on the modelled inputs). -/
structure Datagram where
  magic : String
  version : Nat
  msgType : Nat
  snapshotId : Nat
  seqNum : Nat
  timestamp : Nat
  payloadLen : Nat
  payload : String
deriving DecidableEq, Repr

/-- `EVENT` handler (`msg_type == 2` branch).  NOTE: faithful to the code,
`modifiedFlag` is set before any validation.  A successful acquire writes the
cell, counts the click, logs the position and — when the grid fills up —
triggers `broadcast_game_over`. -/
def handleEvent (now : Nat) (st : ServerState) (addr : Nat) (message : String) :
    ServerState × List (Nat × Msg) :=
  let st := { st with modifiedFlag := true }
  let parts := pySplit message
  if parts.length = 3 ∧ parts.getD 0 "" = "ACQUIRE_CELL" then
    match pyToInt (parts.getD 1 ""), pyToInt (parts.getD 2 ""),
          lookupClient st.clients addr with
    | some r, some c, some info =>
      if 0 ≤ r ∧ r < (rows : Int) ∧ 0 ≤ c ∧ c < (cols : Int) ∧
          gridGet st.grid r.toNat c.toNat = 0 then
        let g := gridSet st.grid r.toNat c.toNat (info.clientNumber : Int)
        let st := { st with
                      grid := g,
                      numberOfClicks := st.numberOfClicks + 1,
                      positionsLog := log_authoritative_position now g st.positionsLog }
        if st.numberOfClicks ≥ rows * cols then broadcast_game_over st
        else (st, [])
      else (st, [])
    | _, _, _ => (st, [])
  else (st, [])

/-- One inbound datagram through the authority's receive loop: skip when the
game is over, otherwise dispatch on `msg_type` (INIT / ACK / EVENT).  Note the
code never examines `magic` or `version`. -/
def serverStep (now : Nat) (st : ServerState) (addr : Nat) (d : Datagram) :
    ServerState × List (Nat × Msg) :=
  if st.gameOver then (st, [])
  else if d.msgType = 0 then
    let fresh := initClientRecord (st.clientNumber + 1) st.grid
    ({ st with clientNumber := st.clientNumber + 1,
               clients := dictSet st.clients addr fresh },
     [(addr, Msg.ack 0 0), (addr, Msg.full 1 1 st.grid)])
  else if d.msgType = 1 then
    match lookupClient st.clients addr with
    | some info =>
      ({ st with clients := dictSet st.clients addr (ackUpdate info d.snapshotId) }, [])
    | none => (st, [])
  else if d.msgType = 2 then
    handleEvent now st addr (String.mk (d.payload.data.take d.payloadLen))
  else (st, [])

/-- A sequence of inbound datagrams through the receive loop
(`(now, addr, datagram)` per reception). -/
def serverRun (st : ServerState) (inputs : List (Nat × Nat × Datagram)) : ServerState :=
  inputs.foldl (fun s t => (serverStep t.1 s t.2.1 t.2.2).1) st

/-- One full broadcast tick (`broadcast_snapshots` loop body): run every
client's slice over a snapshot of the client table, then clear
`modifiedFlag`. -/
def broadcastTick (st : ServerState) : ServerState × List (Nat × Msg) :=
  if st.gameOver then (st, [])
  else
    let step := fun (acc : List (Nat × ClientInfo) × List (Nat × Msg))
                    (p : Nat × ClientInfo) =>
      match clientTick st.modifiedFlag st.grid p.2 with
      | (none, _) => acc
      | (some i, ms) => (acc.1 ++ [(p.1, i)], acc.2 ++ ms.map (fun m => (p.1, m)))
    let r := st.clients.foldl step ([], [])
    ({ st with clients := r.1, modifiedFlag := false }, r.2)

/-- `GRID_SIZE` from `client_final.py`. -/
def GRID_SIZE : Nat := 5

/-- Observer (client) state touched by `listen_for_snapshots`.  Wall-clock
fields (`last_received_time`) and the pygame animation dictionaries are
render-only and not modelled. -/
structure ClientState where
  cellOwner : Grid
  previousCellOwner : Grid
  connected : Bool
  statusMessage : String
  gameOver : Bool
  leaderboardData : Option (List LBEntry)
  snapshotBuffer : List (Grid × Nat)
deriving DecidableEq, Repr

/-- Observer start state. -/
def initialClientState : ClientState :=
  { cellOwner := List.replicate GRID_SIZE (List.replicate GRID_SIZE 0),
    previousCellOwner := List.replicate GRID_SIZE (List.replicate GRID_SIZE 0),
    connected := false, statusMessage := "Connecting to server...",
    gameOver := false, leaderboardData := none, snapshotBuffer := [] }

/-- Apply DELTA triples to `cell_owner` in order (`int` parses then an
in-bounds write; a parse failure raises, stopping mid-way with the writes so
far kept — second component `false` models the caught exception). -/
def applyTriples : Grid → List String → Grid × Bool
  | g, p :: r :: c :: rest =>
    (match pyToInt p, pyToInt r, pyToInt c with
     | some pv, some rv, some cv =>
       let g :=
         if 0 ≤ rv ∧ rv < (GRID_SIZE : Int) ∧ 0 ≤ cv ∧ cv < (GRID_SIZE : Int) then
           gridSet g rv.toNat cv.toNat pv
         else g
       applyTriples g rest
     | _, _, _ => (g, false))
  | g, _ => (g, true)

/-- The DELTA branch's net mutation of `cell_owner`: apply triples when the
payload is non-blank and a multiple of three fields; `true` means no
exception (so the snapshot-buffer/animation block runs on `grid =
cell_owner`). -/
def applyDeltaString (g : Grid) (payload : String) : Grid × Bool :=
  if hasNonWs payload then
    let parts := pySplit payload
    if parts.length % 3 = 0 then applyTriples g parts else (g, true)
  else (g, true)

/-- The snapshot-accepted block of `listen_for_snapshots` (`if grid:`): push
to the 3-deep snapshot buffer, update both grids, mark connected. -/
def acceptSnapshot (cs : ClientState) (g : Grid) (snapshotId : Nat) : ClientState :=
  let buf := cs.snapshotBuffer ++ [(g, snapshotId)]
  let buf := if buf.length > 3 then buf.tail else buf
  { cs with snapshotBuffer := buf, previousCellOwner := g, cellOwner := g,
            statusMessage := "Connected! Playing...", connected := true }

/-- One inbound datagram through the observer's receive loop
(`listen_for_snapshots`): FULL / DELTA / HEARTBEAT update the mirror and are
always ACKed (echoing `snapshot_id` and `seq`); GAME_OVER records the
leaderboard and sets the terminal flag; anything else is ignored.  The code
never examines `magic`/`version` and never consults `game_over` before
ACKing. -/
def clientHandle (cs : ClientState) (m : Msg) : ClientState × List Msg :=
  match m with
  | Msg.full sid sq g =>
    let cs := if g ≠ [] then acceptSnapshot cs g sid else cs
    (cs, [Msg.ack sid sq])
  | Msg.delta sid sq payload =>
    let r := applyDeltaString cs.cellOwner payload
    let cs := { cs with cellOwner := r.1 }
    let cs := if r.2 ∧ r.1 ≠ [] then acceptSnapshot cs r.1 sid else cs
    (cs, [Msg.ack sid sq])
  | Msg.heartbeat sid sq =>
    -- grid = [] in the heartbeat branch, so the `if grid:` block is skipped
    (cs, [Msg.ack sid sq])
  | Msg.gameOver _ lb =>
    ({ cs with leaderboardData := some lb, gameOver := true,
               statusMessage := "GAME OVER! Check leaderboard below." }, [])
  | Msg.ack _ _ => (cs, [])

/-! ### Python runtime values for the positions-CSV writer

`log_authoritative_position` appends plain tuples to
`authoritative_positions`, while `save_authoritative_positions` reads each
entry as a dict (`entry['timestamp_ms']`, `entry['grid']`).  To capture that
type mismatch the writer is embedded over dynamic Python values. -/

/-- Dynamic Python values (just the shapes these two functions touch). -/
inductive PyVal where
  | pyInt (n : Int)
  | pyList (l : List PyVal)
  | pyTuple (l : List PyVal)
  | pyDict (l : List (String × PyVal))

/-- Python `v[key]` with a string key: only dicts support it; tuples raise
`TypeError`. -/
def pyGetStr : PyVal → String → Except String PyVal
  | PyVal.pyDict kvs, key =>
    match kvs.find? (fun kv => kv.1 = key) with
    | some kv => Except.ok kv.2
    | none => Except.error "KeyError"
  | PyVal.pyTuple _, _ => Except.error "TypeError: tuple indices must be integers"
  | _, _ => Except.error "TypeError"

/-- A grid as the Python object stored in the log. -/
def gridPy (g : Grid) : PyVal :=
  PyVal.pyList (g.map (fun row => PyVal.pyList (row.map PyVal.pyInt)))

/-- The in-memory `authoritative_positions` list: `log_authoritative_position`
stores each entry as the tuple `(timestamp_ms, grid_copy)`. -/
def positionsPy (log : List (Nat × Grid)) : List PyVal :=
  log.map (fun e => PyVal.pyTuple [PyVal.pyInt (e.1 : Int), gridPy e.2])

/-- One data row of `authoritative_positions_<ts>.csv`. -/
structure PosRow where
  timestamp_ms : Int
  row : Nat
  col : Nat
  player : Int
deriving DecidableEq, Repr

/-- Python iteration (`enumerate`) over a value: lists only. -/
def pyIterate : PyVal → Except String (List PyVal)
  | PyVal.pyList l => Except.ok l
  | _ => Except.error "TypeError"

/-- The rows `save_authoritative_positions` writes for one log entry:
`entry['timestamp_ms']`, `entry['grid']`, then one row per cell `> 0`. -/
def saveEntryRows (entry : PyVal) : Except String (List PosRow) := do
  let tsv ← pyGetStr entry "timestamp_ms"
  let gv ← pyGetStr entry "grid"
  let ts ← match tsv with
           | PyVal.pyInt n => Except.ok n
           | _ => Except.error "TypeError"
  let gridRows ← pyIterate gv
  let mut out : List PosRow := []
  let mut r : Nat := 0
  for rowv in gridRows do
    let cells ← pyIterate rowv
    let mut c : Nat := 0
    for cellv in cells do
      match cellv with
      | PyVal.pyInt v =>
        if 0 < v then out := out ++ [{ timestamp_ms := ts, row := r, col := c, player := v }]
      | _ => pure ()
      c := c + 1
    r := r + 1
  return out

/-- `save_authoritative_positions` body: rows written before the enclosing
`try/except` catches the first error (the header row is written first and
survives; it is not modelled). -/
def save_authoritative_positions : List PyVal → List PosRow × Option String
  | [] => ([], none)
  | entry :: rest =>
    match saveEntryRows entry with
    | Except.error msg => ([], some msg)
    | Except.ok rws =>
      let r := save_authoritative_positions rest
      (rws ++ r.1, r.2)

/-- Modelled from the spec (`one row per non-empty cell per logged
snapshot`): the rows the CSV *should* contain for a position log. -/
def specPositionRows (log : List (Nat × Grid)) : List PosRow :=
  log.flatMap (fun e =>
    (e.2.enum.flatMap (fun rrow =>
      rrow.2.enum.filterMap (fun ccell =>
        if 0 < ccell.2 then
          some { timestamp_ms := (e.1 : Int), row := rrow.1, col := ccell.1,
                 player := ccell.2 }
        else none))))

/-! ### Per-client operation sequences (for the buffer invariant) -/

/-- An authority operation touching one client record: a broadcast-tick slice
(DELTA send, retransmit or heartbeat) or the processing of one ACK. -/
inductive ClientOp where
  | tick (modifiedFlag : Bool) (grid : Grid)
  | ackOp (snapId : Nat)
deriving DecidableEq, Repr

/-- Apply one operation to a client record (`none` = evicted by the liveness
gate). -/
def applyOp (info : ClientInfo) : ClientOp → Option ClientInfo
  | ClientOp.tick m g => (clientTick m g info).1
  | ClientOp.ackOp s => some (ackUpdate info s)

/-- Apply a sequence of operations. -/
def applyOps : ClientInfo → List ClientOp → Option ClientInfo
  | info, [] => some info
  | info, op :: ops =>
    match applyOp info op with
    | none => none
    | some j => applyOps j ops

/-- A protocol-conformant operation sequence: every processed ACK
acknowledges a snapshot id the authority could actually have sent, i.e. not
exceeding the client's current snapshot counter (the real observer echoes a
received `snapshot_id`). -/
def okOps : ClientInfo → List ClientOp → Bool
  | _, [] => true
  | info, op :: ops =>
    (match op with
     | ClientOp.ackOp s => decide (s ≤ info.snapshotId)
     | ClientOp.tick _ _ => true) &&
    (match applyOp info op with
     | none => true
     | some j => okOps j ops)

/-- The retransmit-buffer invariant (§8 property 1), together with the
auxiliary bound `last_acked_snapshot_id ≤ snapshot_id` that sustains it. -/
def BufInv (info : ClientInfo) : Prop :=
  info.snapshotBuffer.length ≤ 3 ∧
  (∀ e ∈ info.snapshotBuffer, info.lastAckedSnapshotId < e.snapshotId) ∧
  info.lastAckedSnapshotId ≤ info.snapshotId

instance (info : ClientInfo) : Decidable (BufInv info) := by
  unfold BufInv; infer_instance

/-! ### Spec-side auxiliary definitions -/

/-- `scores[p]` of an association list (0 when absent). -/
def scoreOf (l : List (Int × Nat)) (p : Int) : Nat :=
  match l.find? (fun e => e.1 = p) with
  | some e => e.2
  | none => 0

/-- Keys of an association list. -/
def keys (l : List (Int × Nat)) : List Int := l.map Prod.fst

/-- Number of cells owned by `p`. -/
def countCells (g : Grid) (p : Int) : Nat :=
  g.foldl (fun n row => n + row.count p) 0

/-- Is the grid full (every cell owned)? -/
def gridFullB (g : Grid) : Bool :=
  g.all (fun row => row.all (fun cell => decide (cell ≠ 0)))

/-- Modelled from the spec: the ordering C7 claims for the leaderboard —
descending score with ties broken by the smaller `player_id`. -/
def specTieOrderB : List (Int × Nat) → Bool
  | a :: b :: t =>
    (decide (b.2 < a.2) || (decide (a.2 = b.2) && decide (a.1 < b.1))) &&
    specTieOrderB (b :: t)
  | _ => true

/-! ### Concrete fixtures -/

/-- A 5×5 grid whose cell (0,0) is owned by player 1. -/
def gOne : Grid :=
  [[1, 0, 0, 0, 0], [0, 0, 0, 0, 0], [0, 0, 0, 0, 0], [0, 0, 0, 0, 0], [0, 0, 0, 0, 0]]

/-- A full 5×5 grid: players 2, 1, 3, 4, 5 own one row each (player 2's
cells precede player 1's in row-major order). -/
def gFull : Grid :=
  [[2, 2, 2, 2, 2], [1, 1, 1, 1, 1], [3, 3, 3, 3, 3], [4, 4, 4, 4, 4], [5, 5, 5, 5, 5]]

/-- Authority state with one connected, fully-synchronised client at
address 7 and one owned cell. -/
def stOne : ServerState :=
  { grid := gOne, numberOfClicks := 1, modifiedFlag := false, gameOver := false,
    clientNumber := 1, clients := [(7, initClientRecord 1 gOne)], positionsLog := [] }

/-- A datagram carrying `EVENT ACQUIRE_CELL 0 0` with a corrupted magic. -/
def dBadMagic : Datagram :=
  { magic := "XXXX", version := 9, msgType := 2, snapshotId := 0, seqNum := 0,
    timestamp := 0, payloadLen := 16, payload := "ACQUIRE_CELL 0 0" }

/-- A well-formed datagram carrying `EVENT ACQUIRE_CELL 0 0`. -/
def dAcquire00 : Datagram :=
  { magic := "DOMX", version := 1, msgType := 2, snapshotId := 0, seqNum := 0,
    timestamp := 0, payloadLen := 16, payload := "ACQUIRE_CELL 0 0" }

/-- A client record with one unACKed buffered snapshot (id 1, payload
`"1 0 0"`) awaiting retransmission. -/
def infoRetrans : ClientInfo :=
  { seq := 5, snapshotId := 1, clientNumber := 1, lastAck := false,
    snapshotBuffer := [⟨1, 1, "1 0 0"⟩], lastAckedSnapshotId := 0,
    packetsAwaitingAck := [1], consecutiveUnackedHeartbeats := 0,
    lastGridSent := gOne }

/-- An INIT datagram. -/
def dInit : Datagram :=
  { magic := "DOMX", version := 1, msgType := 0, snapshotId := 0, seqNum := 0,
    timestamp := 0, payloadLen := 0, payload := "" }

/-- Observer state already in the terminal (post-GAME_OVER) display state. -/
def csTerminal : ClientState :=
  { initialClientState with gameOver := true }

/-! ### Helper lemmas -/

theorem find?_dictSet (cs : List (Nat × ClientInfo)) (addr : Nat) (info : ClientInfo) :
    (dictSet cs addr info).find? (fun p => p.1 = addr) = some (addr, info) := by
  induction cs with
  | nil => simp [dictSet, List.find?]
  | cons q rest ih =>
    by_cases hq : q.1 = addr
    · have hany : (q :: rest).any (fun p => decide (p.1 = addr)) = true := by
        simp [List.any_cons, hq]
      simp only [dictSet, hany, if_true]
      rw [List.map_cons, if_pos hq]
      simp [List.find?]
    · by_cases hrest : rest.any (fun p => decide (p.1 = addr)) = true
      · have hany : (q :: rest).any (fun p => decide (p.1 = addr)) = true := by
          simp [List.any_cons, hrest]
        have ihr : dictSet rest addr info = rest.map
            (fun p => if p.1 = addr then (addr, info) else p) := by
          simp [dictSet, hrest]
        simp only [dictSet, hany, if_true]
        rw [List.map_cons, if_neg hq,
          List.find?_cons_of_neg _ (by simpa using hq), ← ihr, ih]
      · have hany : ((q :: rest).any (fun p => decide (p.1 = addr)) = true) → False := by
          simp only [List.any_cons, Bool.or_eq_true]
          rintro (h | h)
          · exact hq (by simpa using h)
          · exact hrest h
        have ihr : dictSet rest addr info = rest ++ [(addr, info)] := by
          simp [dictSet, hrest]
        simp only [dictSet, if_neg hany]
        rw [List.cons_append,
          List.find?_cons_of_neg _ (by simpa using hq), ← ihr, ih]

theorem lookupClient_dictSet (cs : List (Nat × ClientInfo)) (addr : Nat)
    (info : ClientInfo) :
    lookupClient (dictSet cs addr info) addr = some info := by
  unfold lookupClient
  rw [find?_dictSet]
  rfl

theorem listSet_getD {α : Type} (l : List α) (i : Nat) (a d : α) (j : Nat) :
    (l.set i a).getD j d = if i = j ∧ j < l.length then a else l.getD j d := by
  induction l generalizing i j with
  | nil => simp [List.set]
  | cons x xs ih =>
    cases i with
    | zero =>
      cases j with
      | zero => simp
      | succ j => simp [List.getD_cons_succ]
    | succ i =>
      cases j with
      | zero => simp
      | succ j =>
        simp only [List.set_cons_succ, List.getD_cons_succ, List.length_cons, ih]
        by_cases h : i = j ∧ j < xs.length
        · rw [if_pos h, if_pos ⟨by omega, by omega⟩]
        · rw [if_neg h, if_neg (by omega)]

theorem gridGet_gridSet (g : Grid) (r c : Nat) (v : Int) (r' c' : Nat) :
    gridGet (gridSet g r c v) r' c' =
      if r = r' ∧ r' < g.length ∧ c = c' ∧ c' < (g.getD r []).length then v
      else gridGet g r' c' := by
  unfold gridGet gridSet
  rw [listSet_getD]
  by_cases hr : r = r' ∧ r' < g.length
  · rw [if_pos hr, listSet_getD]
    rcases hr with ⟨hre, hrl⟩
    subst hre
    by_cases hc : c = c' ∧ c' < (g.getD r []).length
    · rw [if_pos hc, if_pos ⟨rfl, hrl, hc⟩]
    · rw [if_neg hc, if_neg (by tauto)]
  · rw [if_neg hr, if_neg (by tauto)]

/-- Where the authority's receive loop may take the grid: unchanged, or a
single write of a non-negative player number into a previously empty cell. -/
theorem serverStep_grid_cases (now : Nat) (st : ServerState) (addr : Nat)
    (d : Datagram) :
    (serverStep now st addr d).1.grid = st.grid ∨
    ∃ rn cn pn, (serverStep now st addr d).1.grid = gridSet st.grid rn cn pn ∧
      gridGet st.grid rn cn = 0 ∧ (0 : Int) ≤ pn := by
  unfold serverStep
  by_cases hgo : st.gameOver = true
  · rw [if_pos hgo]; exact Or.inl rfl
  rw [if_neg hgo]
  by_cases h0 : d.msgType = 0
  · rw [if_pos h0]; exact Or.inl rfl
  rw [if_neg h0]
  by_cases h1 : d.msgType = 1
  · rw [if_pos h1]
    rcases hl : lookupClient st.clients addr with _ | info
    · exact Or.inl rfl
    · exact Or.inl rfl
  rw [if_neg h1]
  by_cases h2 : d.msgType = 2
  · rw [if_pos h2]
    unfold handleEvent
    set msg := String.mk (d.payload.data.take d.payloadLen) with hmsg
    by_cases hp : (pySplit msg).length = 3 ∧ (pySplit msg).getD 0 "" = "ACQUIRE_CELL"
    · rw [if_pos hp]
      rcases h1p : pyToInt ((pySplit msg).getD 1 "") with _ | r
      · exact Or.inl rfl
      rcases h2p : pyToInt ((pySplit msg).getD 2 "") with _ | c
      · exact Or.inl rfl
      rcases h3p : lookupClient st.clients addr with _ | info
      · exact Or.inl rfl
      simp only
      by_cases hb : 0 ≤ r ∧ r < (rows : Int) ∧ 0 ≤ c ∧ c < (cols : Int) ∧
          gridGet st.grid r.toNat c.toNat = 0
      · rw [if_pos hb]
        by_cases hfull : st.numberOfClicks + 1 ≥ rows * cols
        · rw [if_pos hfull]
          exact Or.inr ⟨r.toNat, c.toNat, (info.clientNumber : Int), rfl,
            hb.2.2.2.2, Int.natCast_nonneg _⟩
        · rw [if_neg hfull]
          exact Or.inr ⟨r.toNat, c.toNat, (info.clientNumber : Int), rfl,
            hb.2.2.2.2, Int.natCast_nonneg _⟩
      · rw [if_neg hb]
        exact Or.inl rfl
    · rw [if_neg hp]
      exact Or.inl rfl
  · rw [if_neg h2]
    exact Or.inl rfl

/-- Per-step form of the write-once property. -/
theorem serverStep_write_once (now : Nat) (st : ServerState) (addr : Nat)
    (d : Datagram) (r c : Nat)
    (hne : gridGet (serverStep now st addr d).1.grid r c ≠ gridGet st.grid r c) :
    gridGet st.grid r c = 0 ∧ 0 < gridGet (serverStep now st addr d).1.grid r c := by
  rcases serverStep_grid_cases now st addr d with hg | ⟨rn, cn, pn, hg, h0, hpn⟩
  · rw [hg] at hne; exact absurd rfl hne
  · rw [hg] at hne ⊢
    rw [gridGet_gridSet] at hne ⊢
    by_cases hcond : rn = r ∧ r < st.grid.length ∧ cn = c ∧
        c < (st.grid.getD rn []).length
    · rw [if_pos hcond] at hne ⊢
      have hrc : gridGet st.grid r c = 0 := by
        rcases hcond with ⟨h1, _, h3, _⟩
        rw [← h1, ← h3]
        exact h0
      refine ⟨hrc, ?_⟩
      rw [hrc] at hne
      omega
    · rw [if_neg hcond] at hne
      exact absurd rfl hne

/-- The four shapes a broadcast-tick slice leaves a client record in:
evicted, retransmit (seq bump only), fresh DELTA (counters, buffer and
awaiting set updated), or heartbeat. -/
theorem clientTick_fst_cases (m : Bool) (g : Grid) (i : ClientInfo) :
    (clientTick m g i).1 = none ∨
    (clientTick m g i).1 = some { i with seq := i.seq + 1 } ∨
    (∃ p : String,
      (clientTick m g i).1 = some { i with
        snapshotId := i.snapshotId + 1, seq := i.seq + 1, lastGridSent := g,
        snapshotBuffer :=
          if (i.snapshotBuffer ++ [BufEntry.mk (i.snapshotId + 1) (i.seq + 1) p]).length > 3 then
            (i.snapshotBuffer ++ [BufEntry.mk (i.snapshotId + 1) (i.seq + 1) p]).tail
          else i.snapshotBuffer ++ [BufEntry.mk (i.snapshotId + 1) (i.seq + 1) p],
        packetsAwaitingAck := setAdd i.packetsAwaitingAck (i.snapshotId + 1) }) ∨
    (clientTick m g i).1 = some { i with
        snapshotId := i.snapshotId + 1,
        consecutiveUnackedHeartbeats := i.consecutiveUnackedHeartbeats + 1 } := by
  by_cases hhb : i.consecutiveUnackedHeartbeats ≥ 10
  · left
    unfold clientTick
    rw [if_pos hhb]
  · right
    unfold clientTick
    rw [if_neg hhb]
    rcases hro : (if i.packetsAwaitingAck ≠ [] ∧ i.snapshotBuffer ≠ [] then
        (i.snapshotBuffer.filter
          (fun pkt => pkt.snapshotId = listMin i.packetsAwaitingAck)).head?
      else none) with _ | pkt
    · simp only [hro]
      cases m with
      | false => right; right; rfl
      | true =>
        right; left
        exact ⟨encode_delta_payload (calculate_delta_changes i.lastGridSent g), rfl⟩
    · simp only [hro]
      left
      trivial

/-- `BufInv` is preserved by every per-client authority operation, provided
any processed ACK acknowledges a snapshot id not exceeding the client's
counter. -/
theorem bufInv_applyOp (i : ClientInfo) (op : ClientOp) (j : ClientInfo)
    (hinv : BufInv i)
    (hok : ∀ s, op = ClientOp.ackOp s → s ≤ i.snapshotId)
    (happ : applyOp i op = some j) : BufInv j := by
  obtain ⟨hlen, hent, hle⟩ := hinv
  cases op with
  | ackOp s =>
    have hs : s ≤ i.snapshotId := hok s rfl
    simp only [applyOp, Option.some.injEq] at happ
    subst happ
    refine ⟨?_, ?_, ?_⟩
    · exact le_trans (List.length_filter_le _ _) hlen
    · intro e he
      have := (List.mem_filter.mp he).2
      exact of_decide_eq_true this
    · exact hs
  | tick m g =>
    simp only [applyOp] at happ
    rcases clientTick_fst_cases m g i with hc | hc | ⟨p, hc⟩ | hc <;>
      rw [hc] at happ <;> cases happ
    · exact ⟨hlen, hent, hle⟩
    · refine ⟨?_, ?_, ?_⟩
      · by_cases hb : (i.snapshotBuffer ++ [BufEntry.mk (i.snapshotId + 1) (i.seq + 1) p]).length > 3
        · simp only [hb, if_true, List.length_tail]
          simp only [List.length_append, List.length_cons, List.length_nil] at hb ⊢
          omega
        · simp only [hb, if_false]
          simp only [List.length_append, List.length_cons, List.length_nil] at hb ⊢
          omega
      · intro e he
        have hmem : e ∈ i.snapshotBuffer ++ [BufEntry.mk (i.snapshotId + 1) (i.seq + 1) p] := by
          by_cases hb : (i.snapshotBuffer ++ [BufEntry.mk (i.snapshotId + 1) (i.seq + 1) p]).length > 3
          · simp only [hb, if_true] at he
            exact (List.tail_sublist _).mem he
          · simpa only [hb, if_false] using he
        rcases List.mem_append.mp hmem with hm | hm
        · exact hent e hm
        · simp only [List.mem_singleton] at hm
          subst hm
          simp only
          omega
      · simp only
        omega
    · exact ⟨hlen, hent, by simp only; omega⟩

theorem bufInv_applyOps (info : ClientInfo) (ops : List ClientOp) (j : ClientInfo)
    (hinv : BufInv info) (hok : okOps info ops = true)
    (happ : applyOps info ops = some j) : BufInv j := by
  induction ops generalizing info with
  | nil =>
    simp only [applyOps, Option.some.injEq] at happ
    exact happ ▸ hinv
  | cons op rest ih =>
    simp only [applyOps] at happ
    rcases ha : applyOp info op with _ | k
    · rw [ha] at happ; cases happ
    · rw [ha] at happ
      simp only [okOps, ha, Bool.and_eq_true] at hok
      have hk : BufInv k := by
        refine bufInv_applyOp info op k hinv ?_ ha
        intro s hs
        subst hs
        exact of_decide_eq_true hok.1
      exact ih k hk hok.2 happ

/-! ### Leaderboard lemmas -/

theorem scoreOf_nil (p : Int) : scoreOf [] p = 0 := rfl

theorem scoreOf_bump (l : List (Int × Nat)) (q p : Int) :
    scoreOf (bump l q) p = scoreOf l p + (if p = q then 1 else 0) := by
  induction l with
  | nil =>
    by_cases h : p = q
    · subst h; simp [bump, scoreOf, List.find?]
    · have h' : ¬ q = p := fun hh => h hh.symm
      simp [bump, scoreOf, List.find?, h, h']
  | cons x rest ih =>
    by_cases hxq : x.1 = q
    · by_cases hxp : x.1 = p
      · have hpq : p = q := by rw [← hxp, hxq]
        simp [bump, if_pos hxq, scoreOf, List.find?, hxp, hpq]
      · have hpq : ¬ p = q := by
          intro h; exact hxp (by rw [hxq, ← h])
        simp [bump, if_pos hxq, scoreOf, List.find?, hxp, hpq]
    · by_cases hxp : x.1 = p
      · have hpq : ¬ p = q := by
          intro h; exact hxq (by rw [hxp, h])
        simp [bump, if_neg hxq, scoreOf, List.find?, hxp, hpq]
      · simp only [bump, if_neg hxq]
        unfold scoreOf
        rw [List.find?_cons_of_neg _ (by simpa using hxp),
          List.find?_cons_of_neg _ (by simpa using hxp)]
        exact ih

theorem keys_bump_mem (l : List (Int × Nat)) (q : Int) (h : q ∈ keys l) :
    keys (bump l q) = keys l := by
  induction l with
  | nil => simp [keys] at h
  | cons x rest ih =>
    by_cases hxq : x.1 = q
    · simp [bump, if_pos hxq, keys]
    · have hq : q ∈ keys rest := by
        rcases List.mem_cons.mp h with h' | h'
        · exact absurd h'.symm hxq
        · exact h'
      simp only [bump, if_neg hxq, keys, List.map_cons]
      rw [show keys (bump rest q) = List.map Prod.fst (bump rest q) from rfl] at ih
      rw [ih hq]
      rfl

theorem keys_bump_not_mem (l : List (Int × Nat)) (q : Int) (h : q ∉ keys l) :
    keys (bump l q) = keys l ++ [q] := by
  induction l with
  | nil => simp [bump, keys]
  | cons x rest ih =>
    have hxq : ¬ x.1 = q := by
      intro hh
      exact h (by simp only [keys, List.map_cons, List.mem_cons]; exact Or.inl hh.symm)
    have hq : q ∉ keys rest := by
      intro hh
      apply h
      simp only [keys, List.map_cons, List.mem_cons]
      exact Or.inr hh
    simp only [bump, if_neg hxq, keys, List.map_cons, List.cons_append]
    rw [show keys (bump rest q) = List.map Prod.fst (bump rest q) from rfl] at ih
    rw [ih hq]
    rfl

theorem nodup_keys_bump (l : List (Int × Nat)) (q : Int) (h : (keys l).Nodup) :
    (keys (bump l q)).Nodup := by
  by_cases hm : q ∈ keys l
  · rw [keys_bump_mem l q hm]; exact h
  · rw [keys_bump_not_mem l q hm]
    simp [List.nodup_append, h, hm]

theorem allPos_bump (l : List (Int × Nat)) (q : Int) (h : ∀ e ∈ l, 0 < e.2) :
    ∀ e ∈ bump l q, 0 < e.2 := by
  induction l with
  | nil =>
    intro e he
    simp [bump] at he
    subst he
    exact Nat.one_pos
  | cons x rest ih =>
    intro e he
    by_cases hxq : x.1 = q
    · simp only [bump, if_pos hxq, List.mem_cons] at he
      rcases he with rfl | he
      · exact Nat.succ_pos _
      · exact h e (List.mem_cons_of_mem x he)
    · simp only [bump, if_neg hxq, List.mem_cons] at he
      rcases he with rfl | he
      · exact h x (List.mem_cons_self x rest)
      · exact ih (fun e' he' => h e' (List.mem_cons_of_mem x he')) e he

theorem mem_keys_iff_scoreOf (l : List (Int × Nat)) (p : Int)
    (hall : ∀ e ∈ l, 0 < e.2) :
    p ∈ keys l ↔ 0 < scoreOf l p := by
  constructor
  · intro hm
    rcases List.mem_map.mp hm with ⟨e, hel, hep⟩
    rcases hf : l.find? (fun e => e.1 = p) with _ | e'
    · have := List.find?_eq_none.mp hf e hel
      exact absurd (by simpa using hep) this
    · unfold scoreOf
      rw [hf]
      exact hall e' (List.mem_of_find?_eq_some hf)
  · intro hs
    rcases hf : l.find? (fun e => e.1 = p) with _ | e'
    · unfold scoreOf at hs
      rw [hf] at hs
      simp at hs
    · have he' : e'.1 = p := by simpa using List.find?_some hf
      exact he' ▸ List.mem_map_of_mem Prod.fst (List.mem_of_find?_eq_some hf)

theorem scoreOf_cellFold (cells : List Int) (acc : List (Int × Nat)) (p : Int)
    (hp : 0 < p) :
    scoreOf (cells.foldl (fun a cell => if 0 < cell then bump a cell else a) acc) p =
    scoreOf acc p + cells.count p := by
  induction cells generalizing acc with
  | nil => simp
  | cons c cells ih =>
    rw [List.foldl_cons, ih, List.count_cons]
    by_cases hc : 0 < c
    · rw [if_pos hc, scoreOf_bump]
      by_cases hcp : p = c
      · subst hcp
        simp
        omega
      · have : (c == p) = false := by
          simp only [beq_eq_false_iff_ne, ne_eq]
          intro h; exact hcp h.symm
        simp [hcp, this]
    · rw [if_neg hc]
      have : (c == p) = false := by
        simp only [beq_eq_false_iff_ne, ne_eq]
        intro h; subst h; exact hc hp
      simp [this]

theorem allPos_cellFold (cells : List Int) (acc : List (Int × Nat))
    (h : ∀ e ∈ acc, 0 < e.2) :
    ∀ e ∈ cells.foldl (fun a cell => if 0 < cell then bump a cell else a) acc, 0 < e.2 := by
  induction cells generalizing acc with
  | nil => exact h
  | cons c cells ih =>
    rw [List.foldl_cons]
    by_cases hc : 0 < c
    · rw [if_pos hc]; exact ih _ (allPos_bump acc c h)
    · rw [if_neg hc]; exact ih _ h

theorem nodup_cellFold (cells : List Int) (acc : List (Int × Nat))
    (h : (keys acc).Nodup) :
    (keys (cells.foldl (fun a cell => if 0 < cell then bump a cell else a) acc)).Nodup := by
  induction cells generalizing acc with
  | nil => exact h
  | cons c cells ih =>
    rw [List.foldl_cons]
    by_cases hc : 0 < c
    · rw [if_pos hc]; exact ih _ (nodup_keys_bump acc c h)
    · rw [if_neg hc]; exact ih _ h

theorem count_rowsFold_shift (rs : List (List Int)) (p : Int) (n : Nat) :
    rs.foldl (fun m row => m + row.count p) n =
    n + rs.foldl (fun m row => m + row.count p) 0 := by
  induction rs generalizing n with
  | nil => simp
  | cons r rs ih =>
    rw [List.foldl_cons, List.foldl_cons, ih, ih (0 + r.count p)]
    omega

theorem scoreOf_computeScores (g : Grid) (p : Int) (hp : 0 < p) :
    scoreOf (computeScores g) p = countCells g p := by
  suffices h : ∀ (rs : List (List Int)) (acc : List (Int × Nat)),
      scoreOf (rs.foldl (fun acc row =>
        row.foldl (fun acc cell => if 0 < cell then bump acc cell else acc) acc) acc) p =
      scoreOf acc p + rs.foldl (fun n row => n + row.count p) 0 by
    have hg := h g []
    rw [scoreOf_nil] at hg
    unfold computeScores countCells
    omega
  intro rs
  induction rs with
  | nil => intro acc; simp
  | cons r rs ih =>
    intro acc
    rw [List.foldl_cons, List.foldl_cons, ih, scoreOf_cellFold r acc p hp,
      count_rowsFold_shift rs p (0 + List.count p r)]
    omega

theorem allPos_computeScores (g : Grid) : ∀ e ∈ computeScores g, 0 < e.2 := by
  suffices h : ∀ (rs : List (List Int)) (acc : List (Int × Nat)),
      (∀ e ∈ acc, 0 < e.2) →
      ∀ e ∈ rs.foldl (fun acc row =>
        row.foldl (fun acc cell => if 0 < cell then bump acc cell else acc) acc) acc,
        0 < e.2 by
    exact h g [] (by simp)
  intro rs
  induction rs with
  | nil => intro acc hacc; exact hacc
  | cons r rs ih =>
    intro acc hacc
    rw [List.foldl_cons]
    exact ih _ (allPos_cellFold r acc hacc)

theorem nodup_keys_computeScores (g : Grid) : (keys (computeScores g)).Nodup := by
  suffices h : ∀ (rs : List (List Int)) (acc : List (Int × Nat)),
      (keys acc).Nodup →
      (keys (rs.foldl (fun acc row =>
        row.foldl (fun acc cell => if 0 < cell then bump acc cell else acc) acc)
        acc)).Nodup by
    exact h g [] (by simp [keys])
  intro rs
  induction rs with
  | nil => intro acc hacc; exact hacc
  | cons r rs ih =>
    intro acc hacc
    rw [List.foldl_cons]
    exact ih _ (nodup_cellFold r acc hacc)

theorem insertDesc_perm (x : Int × Nat) (l : List (Int × Nat)) :
    (insertDesc x l).Perm (x :: l) := by
  induction l with
  | nil => exact List.Perm.refl _
  | cons y ys ih =>
    unfold insertDesc
    by_cases h : y.2 ≤ x.2
    · rw [if_pos h]
    · rw [if_neg h]
      exact (ih.cons y).trans (List.Perm.swap x y ys)

theorem mem_insertDesc {z x : Int × Nat} {l : List (Int × Nat)} :
    z ∈ insertDesc x l ↔ z = x ∨ z ∈ l := by
  rw [(insertDesc_perm x l).mem_iff, List.mem_cons]

theorem sortDesc_perm (l : List (Int × Nat)) : (sortDesc l).Perm l := by
  induction l with
  | nil => exact List.Perm.refl _
  | cons x xs ih =>
    exact (insertDesc_perm x (sortDesc xs)).trans (ih.cons x)

theorem insertDesc_pairwise (x : Int × Nat) (l : List (Int × Nat))
    (h : List.Pairwise (fun a b => b.2 ≤ a.2) l) :
    List.Pairwise (fun a b => b.2 ≤ a.2) (insertDesc x l) := by
  induction l with
  | nil => simp [insertDesc]
  | cons y ys ih =>
    rcases List.pairwise_cons.mp h with ⟨hy, hys⟩
    unfold insertDesc
    by_cases hxy : y.2 ≤ x.2
    · rw [if_pos hxy]
      refine List.pairwise_cons.mpr ⟨?_, h⟩
      intro z hz
      rcases List.mem_cons.mp hz with rfl | hz
      · exact hxy
      · exact le_trans (hy z hz) hxy
    · rw [if_neg hxy]
      refine List.pairwise_cons.mpr ⟨?_, ih hys⟩
      intro z hz
      rcases mem_insertDesc.mp hz with rfl | hz
      · omega
      · exact hy z hz

theorem sortDesc_pairwise (l : List (Int × Nat)) :
    List.Pairwise (fun a b => b.2 ≤ a.2) (sortDesc l) := by
  induction l with
  | nil => simp [sortDesc]
  | cons x xs ih => exact insertDesc_pairwise x (sortDesc xs) ih

theorem insertDesc_filter (x : Int × Nat) (l : List (Int × Nat)) (s : Nat) :
    (insertDesc x l).filter (fun e => e.2 = s) =
      if x.2 = s then x :: l.filter (fun e => e.2 = s)
      else l.filter (fun e => e.2 = s) := by
  induction l with
  | nil =>
    by_cases h : x.2 = s <;> simp [insertDesc, List.filter, h]
  | cons y ys ih =>
    unfold insertDesc
    by_cases hxy : y.2 ≤ x.2
    · rw [if_pos hxy]
      by_cases hxs : x.2 = s <;> simp [List.filter_cons, hxs]
    · rw [if_neg hxy]
      by_cases hys : y.2 = s
      · have hxs : ¬ x.2 = s := by omega
        simp [List.filter_cons, hys, hxs, ih]
      · by_cases hxs : x.2 = s <;> simp [List.filter_cons, hys, hxs, ih]

theorem sortDesc_filter (l : List (Int × Nat)) (s : Nat) :
    (sortDesc l).filter (fun e => e.2 = s) = l.filter (fun e => e.2 = s) := by
  induction l with
  | nil => rfl
  | cons x xs ih =>
    show (insertDesc x (sortDesc xs)).filter (fun e => e.2 = s) = _
    rw [insertDesc_filter]
    by_cases hxs : x.2 = s <;> simp [List.filter_cons, hxs, ih]

/-! ### Claim theorems -/

/-- C2 (code_bug exhibit): the receive loop never validates `magic`.  A
datagram whose first four bytes are `"XXXX"` (≠ `"DOMX"`) carrying
`ACQUIRE_CELL 0 0` is processed normally by the authority: the previously
empty cell (0,0) becomes owned, contradicting the requirement that such a
datagram be dropped with no state change. -/
theorem c2_magic_not_checked :
    dBadMagic.magic ≠ "DOMX" ∧
    gridGet (serverStep 5 { stOne with grid := emptyGrid } 7 dBadMagic).1.grid 0 0 = 1 ∧
    gridGet emptyGrid 0 0 = 0 := by
  refine ⟨by decide, ?_, by decide⟩
  decide

/-- C3 (code_bug exhibit): an `EVENT ACQUIRE_CELL 0 0` targeting the
already-owned cell (0,0) leaves the grid unchanged and sends nothing, but
sets `modifiedFlag` — the handler sets the flag before validating the event,
contradicting the claim (and the flag's own documentation). -/
theorem c3_invalid_event_sets_modified_flag :
    gridGet stOne.grid 0 0 ≠ 0 ∧
    (serverStep 5 stOne 7 dAcquire00).1.grid = stOne.grid ∧
    (serverStep 5 stOne 7 dAcquire00).2 = [] ∧
    stOne.modifiedFlag = false ∧
    (serverStep 5 stOne 7 dAcquire00).1.modifiedFlag = true := by
  refine ⟨by decide, by decide, by decide, by decide, by decide⟩

/-- C4 (code_bug exhibit): with `modifiedFlag` set (e.g. by an invalid
event) but a client whose `last_grid_sent` already equals the grid, the
broadcast tick emits a `DELTA` whose payload encodes zero cell changes —
the empty string — instead of a `HEARTBEAT`. -/
theorem c4_empty_delta_on_wire :
    (broadcastTick (serverStep 5 stOne 7 dAcquire00).1).2 = [(7, Msg.delta 2 2 "")] ∧
    calculate_delta_changes gOne gOne = [] ∧
    encode_delta_payload [] = "" := by
  refine ⟨by decide, by decide, by decide⟩

/-- C8 (code_bug exhibit): `log_authoritative_position` stores tuples but
`save_authoritative_positions` subscripts each entry with the string
`'timestamp_ms'`, raising `TypeError` on the very first entry — the caught
exception aborts the writer, so the persisted CSV contains no data rows,
while the claim requires one row per non-empty cell per logged snapshot. -/
theorem c8_positions_csv_type_error :
    save_authoritative_positions (positionsPy (log_authoritative_position 100 gOne [])) =
      ([], some "TypeError: tuple indices must be integers") ∧
    specPositionRows (log_authoritative_position 100 gOne []) =
      [{ timestamp_ms := 100, row := 0, col := 0, player := 1 }] := by
  constructor
  · rfl
  · decide

/-- C9 (counterexample): after the observer processes a `GAME_OVER`
datagram (terminal flag set, leaderboard decoded), a subsequently received
`HEARTBEAT` is still acknowledged — `listen_for_snapshots` sends the ACK for
every FULL/DELTA/HEARTBEAT without consulting `game_over`. -/
theorem c9_ack_after_game_over_counterexample :
    (clientHandle initialClientState
        (Msg.gameOver 3 [{ rank := 1, player := 1, color := "Blue", score := 25 }])).1.gameOver
      = true ∧
    (clientHandle
        (clientHandle initialClientState
          (Msg.gameOver 3 [{ rank := 1, player := 1, color := "Blue", score := 25 }])).1
        (Msg.heartbeat 9 4)).2
      = [Msg.ack 9 4] := by
  refine ⟨by decide, by decide⟩

/-- C1: on a broadcast tick, if a client's `awaiting_ack` is non-empty and
its buffer holds an entry for the lowest outstanding snapshot id, the
authority sends exactly that entry — original `snapshot_id` and payload,
freshly incremented `seq` — and nothing else to that client this tick. -/
theorem c1_retransmit_gate (m : Bool) (g : Grid) (info : ClientInfo) (pkt : BufEntry)
    (hhb : info.consecutiveUnackedHeartbeats < 10)
    (hawait : info.packetsAwaitingAck ≠ [])
    (hpkt : (info.snapshotBuffer.filter
        (fun p => p.snapshotId = listMin info.packetsAwaitingAck)).head? = some pkt) :
    clientTick m g info =
      (some { info with seq := info.seq + 1 },
       [Msg.delta pkt.snapshotId (info.seq + 1) pkt.payload]) ∧
    pkt.snapshotId = listMin info.packetsAwaitingAck := by
  have hbuf : info.snapshotBuffer ≠ [] := by
    intro h
    rw [h] at hpkt
    simp [List.filter] at hpkt
  have hmem : pkt.snapshotId = listMin info.packetsAwaitingAck := by
    rcases hf : (info.snapshotBuffer.filter
        (fun p => p.snapshotId = listMin info.packetsAwaitingAck)) with _ | ⟨a, t⟩
    · rw [hf] at hpkt; simp at hpkt
    · rw [hf] at hpkt
      simp only [List.head?] at hpkt
      have ha : a ∈ info.snapshotBuffer.filter
          (fun p => p.snapshotId = listMin info.packetsAwaitingAck) := by
        rw [hf]; exact List.mem_cons_self a t
      have := (List.mem_filter.mp ha).2
      have hap : a = pkt := by injection hpkt
      subst hap
      exact of_decide_eq_true this
  refine ⟨?_, hmem⟩
  unfold clientTick
  rw [if_neg (by omega)]
  rw [if_pos ⟨hawait, hbuf⟩, hpkt]

/-- C1 witness: the gate fires on a concrete record, resending snapshot 1
with payload `"1 0 0"` and seq 6. -/
theorem c1_retransmit_gate_witness :
    clientTick true gOne infoRetrans =
      (some { infoRetrans with seq := infoRetrans.seq + 1 },
       [Msg.delta (⟨1, 1, "1 0 0"⟩ : BufEntry).snapshotId (infoRetrans.seq + 1)
          (⟨1, 1, "1 0 0"⟩ : BufEntry).payload]) ∧
    (⟨1, 1, "1 0 0"⟩ : BufEntry).snapshotId = listMin infoRetrans.packetsAwaitingAck :=
  c1_retransmit_gate true gOne infoRetrans ⟨1, 1, "1 0 0"⟩
    (by decide) (by decide) (by decide)

/-- C10: an INIT from an address that already has a client record replaces
it with a fresh one — a strictly larger `player_id`, counters restarted
(both equal 1 after the `FULL` reply, hence lower than before whenever any
later datagram had been sent), empty retransmit/liveness state, and
`last_sent_grid` reset to the current grid; the replies are the `ACK` and
the `FULL` snapshot. -/
theorem c10_reinit_resets_record (now : Nat) (st : ServerState) (addr : Nat)
    (d : Datagram) (old : ClientInfo)
    (hgo : st.gameOver = false) (hmt : d.msgType = 0)
    (hold : lookupClient st.clients addr = some old)
    (hmono : old.clientNumber ≤ st.clientNumber) :
    lookupClient (serverStep now st addr d).1.clients addr =
      some (initClientRecord (st.clientNumber + 1) st.grid) ∧
    (serverStep now st addr d).2 = [(addr, Msg.ack 0 0), (addr, Msg.full 1 1 st.grid)] ∧
    old.clientNumber < (initClientRecord (st.clientNumber + 1) st.grid).clientNumber ∧
    (initClientRecord (st.clientNumber + 1) st.grid).seq = 1 ∧
    (initClientRecord (st.clientNumber + 1) st.grid).snapshotId = 1 ∧
    (initClientRecord (st.clientNumber + 1) st.grid).snapshotBuffer = [] ∧
    (initClientRecord (st.clientNumber + 1) st.grid).packetsAwaitingAck = [] ∧
    (initClientRecord (st.clientNumber + 1) st.grid).consecutiveUnackedHeartbeats = 0 ∧
    (initClientRecord (st.clientNumber + 1) st.grid).lastAckedSnapshotId = 0 ∧
    (initClientRecord (st.clientNumber + 1) st.grid).lastGridSent = st.grid ∧
    (1 < old.seq → (initClientRecord (st.clientNumber + 1) st.grid).seq < old.seq) ∧
    (1 < old.snapshotId →
      (initClientRecord (st.clientNumber + 1) st.grid).snapshotId < old.snapshotId) := by
  unfold serverStep
  rw [if_neg (by rw [hgo]; exact Bool.false_ne_true), if_pos hmt]
  refine ⟨?_, rfl, by simp [initClientRecord]; omega, rfl, rfl, rfl, rfl, rfl, rfl, rfl,
    fun h => h, fun h => h⟩
  exact lookupClient_dictSet st.clients addr _

/-- C10 witness: re-INIT of the connected client at address 7 in `stOne`. -/
theorem c10_reinit_resets_record_witness :
    lookupClient (serverStep 5 stOne 7 dInit).1.clients 7 =
      some (initClientRecord (stOne.clientNumber + 1) stOne.grid) ∧
    (serverStep 5 stOne 7 dInit).2 =
      [(7, Msg.ack 0 0), (7, Msg.full 1 1 stOne.grid)] ∧
    (initClientRecord 1 gOne).clientNumber <
      (initClientRecord (stOne.clientNumber + 1) stOne.grid).clientNumber ∧
    (initClientRecord (stOne.clientNumber + 1) stOne.grid).seq = 1 ∧
    (initClientRecord (stOne.clientNumber + 1) stOne.grid).snapshotId = 1 ∧
    (initClientRecord (stOne.clientNumber + 1) stOne.grid).snapshotBuffer = [] ∧
    (initClientRecord (stOne.clientNumber + 1) stOne.grid).packetsAwaitingAck = [] ∧
    (initClientRecord (stOne.clientNumber + 1) stOne.grid).consecutiveUnackedHeartbeats = 0 ∧
    (initClientRecord (stOne.clientNumber + 1) stOne.grid).lastAckedSnapshotId = 0 ∧
    (initClientRecord (stOne.clientNumber + 1) stOne.grid).lastGridSent = stOne.grid ∧
    (1 < (initClientRecord 1 gOne).seq →
      (initClientRecord (stOne.clientNumber + 1) stOne.grid).seq <
        (initClientRecord 1 gOne).seq) ∧
    (1 < (initClientRecord 1 gOne).snapshotId →
      (initClientRecord (stOne.clientNumber + 1) stOne.grid).snapshotId <
        (initClientRecord 1 gOne).snapshotId) :=
  c10_reinit_resets_record 5 stOne 7 dInit (initClientRecord 1 gOne)
    (by decide) (by decide) (by decide) (by decide)

/-- C9 (amended): after the observer processes a `GAME_OVER` datagram
(leaderboard decoded, terminal flag set), it *still* sends exactly one ACK —
echoing `snapshot_id` and `seq` — for every subsequently received FULL,
DELTA or HEARTBEAT datagram; only non-snapshot messages go unacknowledged. -/
theorem c9_ack_after_game_over_amended (cs : ClientState) (sid sq : Nat)
    (g : Grid) (payload : String) (lb : List LBEntry)
    (hterm : cs.gameOver = true) :
    (clientHandle cs (Msg.full sid sq g)).2 = [Msg.ack sid sq] ∧
    (clientHandle cs (Msg.delta sid sq payload)).2 = [Msg.ack sid sq] ∧
    (clientHandle cs (Msg.heartbeat sid sq)).2 = [Msg.ack sid sq] ∧
    (clientHandle cs (Msg.gameOver sq lb)).2 = [] ∧
    (clientHandle cs (Msg.ack sid sq)).2 = [] ∧
    (clientHandle cs (Msg.gameOver sq lb)).1.gameOver = true ∧
    (clientHandle cs (Msg.gameOver sq lb)).1.leaderboardData = some lb := by
  refine ⟨?_, ?_, rfl, rfl, rfl, rfl, rfl⟩ <;> simp [clientHandle]

/-- C9 amended witness: instantiated in the terminal state. -/
theorem c9_ack_after_game_over_amended_witness :
    (clientHandle csTerminal (Msg.full 9 4 gOne)).2 = [Msg.ack 9 4] ∧
    (clientHandle csTerminal (Msg.delta 9 4 "1 0 0")).2 = [Msg.ack 9 4] ∧
    (clientHandle csTerminal (Msg.heartbeat 9 4)).2 = [Msg.ack 9 4] ∧
    (clientHandle csTerminal (Msg.gameOver 4 [])).2 = [] ∧
    (clientHandle csTerminal (Msg.ack 9 4)).2 = [] ∧
    (clientHandle csTerminal (Msg.gameOver 4 [])).1.gameOver = true ∧
    (clientHandle csTerminal (Msg.gameOver 4 [])).1.leaderboardData = some [] :=
  c9_ack_after_game_over_amended csTerminal 9 4 gOne "1 0 0" [] (by decide)

/-- C6: across the authority's receive loop a cell changes at most once —
any single-step change takes it from `0` to a positive player id, and once
non-zero its value survives any further sequence of inbound datagrams. -/
theorem c6_cell_write_once :
    (∀ now st addr d r c,
        gridGet (serverStep now st addr d).1.grid r c ≠ gridGet st.grid r c →
        gridGet st.grid r c = 0 ∧ 0 < gridGet (serverStep now st addr d).1.grid r c) ∧
    (∀ st inputs r c,
        gridGet st.grid r c ≠ 0 →
        gridGet (serverRun st inputs).grid r c = gridGet st.grid r c) := by
  refine ⟨serverStep_write_once, ?_⟩
  intro st inputs
  induction inputs generalizing st with
  | nil => intro r c _; rfl
  | cons t rest ih =>
    intro r c hne
    have hstep : gridGet (serverStep t.1 st t.2.1 t.2.2).1.grid r c =
        gridGet st.grid r c := by
      by_cases h : gridGet (serverStep t.1 st t.2.1 t.2.2).1.grid r c =
          gridGet st.grid r c
      · exact h
      · exact absurd (serverStep_write_once t.1 st t.2.1 t.2.2 r c h).1 hne
    have : serverRun st (t :: rest) = serverRun (serverStep t.1 st t.2.1 t.2.2).1 rest := by
      simp [serverRun]
    rw [this, ih _ r c (by rw [hstep]; exact hne), hstep]

/-- C6 witness: player 1's acquisition of the empty cell (0,0) is a 0 → 1
transition, and the owned cell (0,0) of `stOne` survives a later event. -/
theorem c6_cell_write_once_witness :
    (gridGet ({ stOne with grid := emptyGrid } : ServerState).grid 0 0 = 0 ∧
      0 < gridGet (serverStep 5 { stOne with grid := emptyGrid } 7 dAcquire00).1.grid 0 0) ∧
    gridGet (serverRun stOne [(5, 7, dAcquire00)]).grid 0 0 = gridGet stOne.grid 0 0 :=
  ⟨c6_cell_write_once.1 5 { stOne with grid := emptyGrid } 7 dAcquire00 0 0 (by decide),
   c6_cell_write_once.2 stOne [(5, 7, dAcquire00)] 0 0 (by decide)⟩

/-- C7 (amended): when the grid is (in particular) full, the `GAME_OVER`
leaderboard the authority broadcasts lists each scoring player exactly once
with score equal to the number of cells they own, ordered by descending
score with ties kept in the order the players first appear in a row-major
scan of the grid (dict insertion order — not the smaller `player_id`), and
ranks assigned 1, 2, 3, … in that order. -/
theorem c7_leaderboard_amended (g : Grid) :
    (leaderboardData g).map (fun e => (e.player, e.score)) = calculate_leaderboard g ∧
    (leaderboardData g).map (fun e => e.rank) =
      List.range' 1 (calculate_leaderboard g).length ∧
    List.Pairwise (fun a b => b.2 ≤ a.2) (calculate_leaderboard g) ∧
    (∀ s : Nat, (calculate_leaderboard g).filter (fun e => e.2 = s) =
      (computeScores g).filter (fun e => e.2 = s)) ∧
    (calculate_leaderboard g).Perm (computeScores g) ∧
    (keys (computeScores g)).Nodup ∧
    (∀ p : Int, 0 < p →
      scoreOf (computeScores g) p = countCells g p ∧
      (p ∈ keys (computeScores g) ↔ 0 < countCells g p)) := by
  refine ⟨?_, ?_, sortDesc_pairwise _, fun s => sortDesc_filter _ s, sortDesc_perm _,
    nodup_keys_computeScores g, ?_⟩
  · show ((calculate_leaderboard g).enum.map _).map _ = _
    rw [List.map_map]
    show (calculate_leaderboard g).enum.map Prod.snd = _
    exact List.enum_map_snd _
  · show ((calculate_leaderboard g).enum.map _).map _ = _
    rw [List.map_map]
    show (calculate_leaderboard g).enum.map (fun pe => pe.1 + 1) = _
    have h1 : (calculate_leaderboard g).enum.map (fun pe => pe.1 + 1) =
        ((calculate_leaderboard g).enum.map Prod.fst).map (fun i => i + 1) := by
      rw [List.map_map]
      rfl
    rw [h1, List.enum_map_fst, List.range'_eq_map_range]
    exact List.map_congr_left (fun a _ => Nat.add_comm a 1)
  · intro p hp
    refine ⟨scoreOf_computeScores g p hp, ?_⟩
    rw [mem_keys_iff_scoreOf _ _ (allPos_computeScores g), scoreOf_computeScores g p hp]

/-- C7 amended witness: player 1 on the full fixture grid scores its 5
cells and appears among the leaderboard keys. -/
theorem c7_leaderboard_amended_witness :
    0 < (1 : Int) ∧
    scoreOf (computeScores gFull) 1 = countCells gFull 1 ∧
    (1 ∈ keys (computeScores gFull) ↔ 0 < countCells gFull 1) :=
  ⟨by decide, ((c7_leaderboard_amended gFull).2.2.2.2.2.2 1 (by decide)).1,
   ((c7_leaderboard_amended gFull).2.2.2.2.2.2 1 (by decide)).2⟩

/-- C5: the retransmit buffer invariant — starting from the record an INIT
leaves behind, after any protocol-conformant sequence of per-client
authority operations (broadcast-tick slices and ACK processings, where each
ACK acknowledges a snapshot id not exceeding the client's counter), the
buffer holds at most 3 entries and every entry's `snapshot_id` exceeds
`last_acked_snapshot_id`. -/
theorem c5_buffer_invariant :
    (∀ n g, BufInv (initClientRecord n g)) ∧
    (∀ info ops j, BufInv info → okOps info ops = true →
      applyOps info ops = some j → BufInv j) := by
  constructor
  · intro n g
    refine ⟨by simp [initClientRecord], ?_, by simp [initClientRecord]⟩
    intro e he
    simp [initClientRecord] at he
  · intro info ops j hinv hok happ
    exact bufInv_applyOps info ops j hinv hok happ

/-- C5 witness: a DELTA tick, a conforming ACK and a retransmit tick applied
to a fresh record keep the invariant. -/
theorem c5_buffer_invariant_witness :
    BufInv (initClientRecord 1 emptyGrid) ∧
    BufInv { seq := 3, snapshotId := 2, clientNumber := 1, lastAck := true,
             snapshotBuffer := [BufEntry.mk 2 2 "1 0 0"], lastAckedSnapshotId := 1,
             packetsAwaitingAck := [2], consecutiveUnackedHeartbeats := 0,
             lastGridSent := gOne } :=
  ⟨c5_buffer_invariant.1 1 emptyGrid,
   c5_buffer_invariant.2 (initClientRecord 1 emptyGrid)
     [ClientOp.tick true gOne, ClientOp.ackOp 1, ClientOp.tick false gOne]
     _ (c5_buffer_invariant.1 1 emptyGrid) (by decide) (by decide)⟩

/-- C7 (counterexample): on this full grid the broadcast leaderboard ranks
player 2 above player 1 although both score 5 — ties are kept in
first-appearance (dict insertion) order by Python's stable sort, not broken
by the smaller `player_id` as claimed. -/
theorem c7_leaderboard_counterexample :
    gridFullB gFull = true ∧
    (leaderboardData gFull).map (fun e => (e.player, e.score)) =
      [(2, 5), (1, 5), (3, 5), (4, 5), (5, 5)] ∧
    specTieOrderB ((leaderboardData gFull).map (fun e => (e.player, e.score))) = false := by
  refine ⟨by decide, by decide, by decide⟩
